import Mathlib

/-!
Verification of the verbal-memory game engine in `src/game/game.js`.

The development shallowly embeds the `GameEngine` class and the `MockAPI`
word supplier.  JavaScript numbers that only ever hold integers
(`currentScore`, `lives`) become `Nat`/`Int`; fractional quantities
(`timerValue`, `difficulty`, `time_limit`, wall-clock instants) become `Rat`;
`x.toFixed(n)` followed by `parseFloat` is modelled exactly as rounding to
`n` decimal places (round half away from zero, all values involved are
nonnegative).

Asynchronous behaviour is made explicit:
* `this.timerInterval` becomes `timer : Option TimerHandle`; an
  interval callback firing at wall-clock instant `now` is the `timerTick`
  step, which does nothing once the interval has been cleared (`none`).
* The `setTimeout(() => this.fetchNextWord(), 500)` calls scheduled by the
  answer handlers are counted by `pendingFetches`; running one such queued
  callback is the `Event.fetchCall` step, which executes the part of
  `fetchNextWord` *before* its `await` (the `gameState` check) and, if the
  check passes, starts an API request, counted by `inflightFetches`.
* The continuation of `fetchNextWord` *after* `await api.getNextWord(...)`
  resolves with word data `wd` is the `Event.fetchArrive` step; faithful to
  the source, it installs the word and re-arms the timer without re-checking
  `gameState`.
Engine methods mutate `this.state` in place; here each method is a function
`Engine → Engine` and `seenWords.push(w)` becomes `seenWords ++ [w]`.
-/

/-- The record resolved by `MockAPI.getNextWord` and stored in
`state.currentWordData`: `{word, difficulty, time_limit}`. -/
structure WordData where
  word : String
  difficulty : Rat
  time_limit : Rat
deriving DecidableEq

/-- The data captured by `startTimer`'s closure: `startTime = Date.now()`
and `duration = this.state.timerValue * 1000` (milliseconds). -/
structure TimerHandle where
  startTime : Rat
  duration : Rat
deriving DecidableEq

/-- `this.state` of the `GameEngine` constructor, field for field. -/
structure GameState where
  authToken : Option String
  gameState : String
  gameMode : String
  currentScore : Nat
  lives : Int
  seenWords : List String
  currentWordData : WordData
  timerValue : Rat
deriving DecidableEq

/-- The engine object: `this.state`, the interval handle
(`none` = `null`), the reentrancy guard, and the two event-loop queues
described in the module docstring (`setTimeout`-scheduled calls to
`fetchNextWord`, and `getNextWord` requests whose `await` has not yet
resumed). -/
structure Engine where
  state : GameState
  timer : Option TimerHandle
  isProcessingAnswer : Bool
  pendingFetches : Nat
  inflightFetches : Nat
deriving DecidableEq

/-- The freshly constructed engine (`new GameEngine()`). -/
def initEngine : Engine :=
  { state :=
      { authToken := none
        gameState := "MENU"
        gameMode := "medium"
        currentScore := 0
        lives := 3
        seenWords := []
        currentWordData := { word := "", difficulty := 1/2, time_limit := 0 }
        timerValue := 0 }
    timer := none
    isProcessingAnswer := false
    pendingFetches := 0
    inflightFetches := 0 }

/-- `Math.max(a, b)` on (NaN-free) numbers. -/
def jsMax (a b : Rat) : Rat := if a ≤ b then b else a

/-- `parseFloat(x.toFixed(1))` for nonnegative `x`: round to one decimal
place, ties away from zero. -/
def toFixed1 (x : Rat) : Rat := (Int.floor (x * 10 + 1/2) : Rat) / 10

/-- `parseFloat(x.toFixed(2))` for nonnegative `x`: round to two decimal
places, ties away from zero. -/
def toFixed2 (x : Rat) : Rat := (Int.floor (x * 100 + 1/2) : Rat) / 100

/-- `stopTimer()`: clears the interval (idempotent). -/
def stopTimer (e : Engine) : Engine := { e with timer := none }

/-- `startTimer()`: stops any prior interval, captures
`startTime = Date.now()` (the parameter `now`) and
`duration = this.state.timerValue * 1000`, and arms the interval.
Clearing the old handle and then overwriting it collapses to the single
record update. -/
def startTimer (now : Rat) (e : Engine) : Engine :=
  { e with timer := some { startTime := now, duration := e.state.timerValue * 1000 } }

/-- `gameOver()` up to its external effects: stop the timer, set
`gameState = "GAME_OVER"`, and (after the fire-and-forget
`await api.saveScore(...)`) clear the reentrancy guard.  No follow-up
fetch is scheduled. -/
def gameOver (e : Engine) : Engine :=
  { e with
    timer := none
    state := { e.state with gameState := "GAME_OVER" }
    isProcessingAnswer := false }

/-- `handleCorrectAnswer()`: increment `currentScore`, push the current
word onto `seenWords`, clear the guard, and schedule
`setTimeout(() => fetchNextWord(), 500)` (one more pending fetch call). -/
def handleCorrectAnswer (e : Engine) : Engine :=
  { e with
    state := { e.state with
      currentScore := e.state.currentScore + 1
      seenWords := e.state.seenWords ++ [e.state.currentWordData.word] }
    isProcessingAnswer := false
    pendingFetches := e.pendingFetches + 1 }

/-- The first two statements of `handleWrongAnswer()`: `this.state.lives--`
and `this.state.seenWords.push(this.state.currentWordData.word)`. -/
def wrongUpdate (e : Engine) : Engine :=
  { e with
    state := { e.state with
      lives := e.state.lives - 1
      seenWords := e.state.seenWords ++ [e.state.currentWordData.word] } }

/-- `handleWrongAnswer()`: after `wrongUpdate`, if `lives <= 0` call
`gameOver()`, otherwise clear the guard and schedule the next
`fetchNextWord` call. -/
def handleWrongAnswer (e : Engine) : Engine :=
  if (wrongUpdate e).state.lives ≤ 0 then gameOver (wrongUpdate e)
  else
    { wrongUpdate e with
      isProcessingAnswer := false
      pendingFetches := (wrongUpdate e).pendingFetches + 1 }

/-- `handleTimerExpiry()`: bail out if an answer is mid-processing
(without touching anything), otherwise stop the timer and treat the
expiry as a wrong answer.  Note that it never *sets* the guard. -/
def handleTimerExpiry (e : Engine) : Engine :=
  if e.isProcessingAnswer then e else handleWrongAnswer (stopTimer e)

/-- The two statements at the top of a proceeding answer evaluation:
`this.isProcessingAnswer = true; this.stopTimer();`. -/
def guardSet (e : Engine) : Engine :=
  { e with isProcessingAnswer := true, timer := none }

/-- `answerSeen()`: reject when not `PLAYING`, reject when the guard is
set; otherwise set the guard, stop the timer, and branch on
`isCorrect = seenWords.includes(currentWordData.word)` (the membership is
read from state that `guardSet` does not touch). -/
def answerSeen (e : Engine) : Engine :=
  if e.state.gameState ≠ "PLAYING" then e
  else if e.isProcessingAnswer then e
  else if e.state.seenWords.contains e.state.currentWordData.word then
    handleCorrectAnswer (guardSet e)
  else
    handleWrongAnswer (guardSet e)

/-- `answerNew()`: identical to `answerSeen` except
`isCorrect = !seenWords.includes(currentWordData.word)`. -/
def answerNew (e : Engine) : Engine :=
  if e.state.gameState ≠ "PLAYING" then e
  else if e.isProcessingAnswer then e
  else if e.state.seenWords.contains e.state.currentWordData.word then
    handleWrongAnswer (guardSet e)
  else
    handleCorrectAnswer (guardSet e)

/-- The part of `fetchNextWord()` before its `await`: return immediately
unless `gameState === "PLAYING"`, otherwise issue the
`api.getNextWord(seenWords)` request (one more in-flight fetch). -/
def fetchNextWordCall (e : Engine) : Engine :=
  if e.state.gameState ≠ "PLAYING" then e
  else { e with inflightFetches := e.inflightFetches + 1 }

/-- The continuation of `fetchNextWord()` after `await api.getNextWord`
resolves with `wd` at wall-clock instant `now`: install
`currentWordData = wd`, set `timerValue = wd.time_limit`, and
`startTimer()`.  Faithful to the source, `gameState` is *not* re-checked
here. -/
def fetchNextWordResume (wd : WordData) (now : Rat) (e : Engine) : Engine :=
  startTimer now
    { e with state := { e.state with currentWordData := wd, timerValue := wd.time_limit } }

/-- `startGame()`: a no-op while `PLAYING`; otherwise reset
`gameState/currentScore/lives/seenWords` and call `fetchNextWord()`
(whose pre-`await` part runs synchronously). -/
def startGame (e : Engine) : Engine :=
  if e.state.gameState = "PLAYING" then e
  else
    fetchNextWordCall
      { e with state := { e.state with
          gameState := "PLAYING", currentScore := 0, lives := 3, seenWords := [] } }

/-- `setMode(mode)`: reject unknown modes, reject while `PLAYING`,
otherwise install the mode. -/
def setMode (m : String) (e : Engine) : Engine :=
  if !(["easy", "medium", "hard"].contains m) then e
  else if e.state.gameState = "PLAYING" then e
  else { e with state := { e.state with gameMode := m } }

/-- The assignment performed by every interval callback:
`this.state.timerValue = parseFloat((Math.max(0, duration - elapsed) / 1000).toFixed(1))`. -/
def tickUpdate (now : Rat) (t : TimerHandle) (e : Engine) : Engine :=
  { e with state := { e.state with
      timerValue := toFixed1 (jsMax 0 (t.duration - (now - t.startTime)) / 1000) } }

/-- One firing of the `setInterval` callback installed by `startTimer`,
at wall-clock instant `now`.  A cleared interval (`timer = none`) never
fires.  Otherwise recompute the remaining time from elapsed wall-clock
time, store it, and on `remaining <= 0` run `handleTimerExpiry()`. -/
def timerTick (now : Rat) (e : Engine) : Engine :=
  match e.timer with
  | none => e
  | some t =>
      if jsMax 0 (t.duration - (now - t.startTime)) / 1000 ≤ 0 then
        handleTimerExpiry (tickUpdate now t e)
      else tickUpdate now t e

/-- The externally triggerable steps of the engine's event loop:
UI calls (`startGame`, `answerSeen`, `answerNew`, `setMode`), an interval
callback firing (`tick`), a queued `setTimeout` callback running
`fetchNextWord` up to its `await` (`fetchCall`), and a pending
`getNextWord` promise resolving with word data (`fetchArrive`). -/
inductive Event where
  | start : Event
  | seen : Event
  | new : Event
  | tick (now : Rat) : Event
  | fetchCall : Event
  | fetchArrive (wd : WordData) (now : Rat) : Event
  | mode (m : String) : Event

/-- Interpretation of one event.  `fetchCall` only runs when a
`setTimeout` callback is actually queued, `fetchArrive` only when a
request is actually in flight. -/
def step (ev : Event) (e : Engine) : Engine :=
  match ev with
  | .start => startGame e
  | .seen => answerSeen e
  | .new => answerNew e
  | .tick now => timerTick now e
  | .fetchCall =>
      if e.pendingFetches = 0 then e
      else fetchNextWordCall { e with pendingFetches := e.pendingFetches - 1 }
  | .fetchArrive wd now =>
      if e.inflightFetches = 0 then e
      else fetchNextWordResume wd now { e with inflightFetches := e.inflightFetches - 1 }
  | .mode m => setMode m e

/-- Run a sequence of event-loop steps. -/
def runE (e : Engine) : List Event → Engine
  | [] => e
  | ev :: evs => runE (step ev e) evs

/-- Whether an event is a `startGame` call. -/
def isStartEv : Event → Bool
  | .start => true
  | _ => false

/-- Whether this event, fired in state `e`, resolves the current word as a
correct answer: the call must get past the `PLAYING` and guard checks, and
the player's claim must match `seenWords.includes(currentWordData.word)`. -/
def resolvedCorrect (ev : Event) (e : Engine) : Bool :=
  match ev with
  | .seen =>
      decide (e.state.gameState = "PLAYING") && !e.isProcessingAnswer &&
        e.state.seenWords.contains e.state.currentWordData.word
  | .new =>
      decide (e.state.gameState = "PLAYING") && !e.isProcessingAnswer &&
        !(e.state.seenWords.contains e.state.currentWordData.word)
  | _ => false

/-- Number of correct resolutions along a run of events from `e`. -/
def countCorrect (e : Engine) : List Event → Nat
  | [] => 0
  | ev :: evs => (if resolvedCorrect ev e then 1 else 0) + countCorrect (step ev e) evs

/-- `MockAPI`'s `wordBank`. -/
def wordBank : List String :=
  ["apple", "logic", "memory", "system", "neural", "compute", "vector",
   "matrix", "binary", "cache", "thread", "kernel", "buffer", "pipeline",
   "latency", "runtime", "compile", "debug", "syntax", "parser", "lexer",
   "token", "stack", "heap", "queue", "graph", "tree", "node", "edge",
   "vertex", "algorithm", "function", "variable", "object", "array", "string"]

/-- The `do { word = wordBank[...]; attempts++ } while (seenWords.includes(word)
&& attempts < 50)` loop of `MockAPI.getNextWord`.  `draws k` is the random
bank index drawn on attempt `k` (0-based); after drawing attempt `attempt`
the JavaScript counter reads `attempt + 1`, hence the loop condition
`attempt + 1 < 50`.  The structural fuel starts at `50` and therefore never
reaches `0` before the condition turns false. -/
def drawGo (bank seen : List String) (draws : Nat → Nat) : Nat → Nat → String
  | 0, attempt => bank.getD (draws attempt) ""
  | fuel + 1, attempt =>
      if seen.contains (bank.getD (draws attempt) "") ∧ attempt + 1 < 50 then
        drawGo bank seen draws fuel (attempt + 1)
      else bank.getD (draws attempt) ""

/-- `MockAPI.getNextWord(seenWords)` with its random draws made explicit:
`repeatRand` is the `Math.random()` compared against `0.35`, `repeatIdx`
the random index into `seenWords` used when repeating, `draws` the random
bank indices of the novel-word loop, and `difficultyRand` the
`Math.random()` that becomes the difficulty.  The time limit
`5.0 - difficulty * 3.0` is computed from the raw difficulty, and both
result fields pass through `toFixed`. -/
def mockGetNextWord (seenWords : List String) (repeatRand : Rat) (repeatIdx : Nat)
    (draws : Nat → Nat) (difficultyRand : Rat) : WordData :=
  { word :=
      if 0 < seenWords.length ∧ repeatRand < 35/100 then seenWords.getD repeatIdx ""
      else drawGo wordBank seenWords draws 50 0
    difficulty := toFixed2 difficultyRand
    time_limit := toFixed1 (5 - difficultyRand * 3) }

/-!
Statement-level micro-traces.  Each list holds the engine state after every
successive primitive statement of the corresponding JavaScript method body,
so that properties of the intermediate states (in particular the value of
the reentrancy guard while mutations are only partially applied) can be
stated.  The last element of each trace is the corresponding step
function's result.
-/

/-- Intermediate states of `handleCorrectAnswer()`:
after `currentScore++`, after the `seenWords.push`, after
`isProcessingAnswer = false`, and after the `setTimeout` call. -/
def correctAnswerTrace (e : Engine) : List Engine :=
  [ { e with state := { e.state with currentScore := e.state.currentScore + 1 } },
    { e with state := { e.state with
        currentScore := e.state.currentScore + 1
        seenWords := e.state.seenWords ++ [e.state.currentWordData.word] } },
    { e with
      state := { e.state with
        currentScore := e.state.currentScore + 1,
        seenWords := e.state.seenWords ++ [e.state.currentWordData.word] },
      isProcessingAnswer := false },
    handleCorrectAnswer e ]

/-- Intermediate states of `handleWrongAnswer()`: after `lives--`, after
the `seenWords.push`, then either the `gameOver()` statements (stop timer,
set `GAME_OVER`, clear guard) or (non-fatal) clear guard and schedule the
next fetch. -/
def wrongAnswerTrace (e : Engine) : List Engine :=
  if (wrongUpdate e).state.lives ≤ 0 then
    [ { e with state := { e.state with lives := e.state.lives - 1 } },
      wrongUpdate e,
      { wrongUpdate e with timer := none },
      { wrongUpdate e with
        timer := none,
        state := { (wrongUpdate e).state with gameState := "GAME_OVER" } },
      handleWrongAnswer e ]
  else
    [ { e with state := { e.state with lives := e.state.lives - 1 } },
      wrongUpdate e,
      { wrongUpdate e with isProcessingAnswer := false },
      handleWrongAnswer e ]

/-- Intermediate states of `answerSeen()`: the rejected calls contribute no
mutation; a proceeding evaluation first sets the guard, then stops the
timer, then runs the branch chosen by the membership test. -/
def answerSeenTrace (e : Engine) : List Engine :=
  if e.state.gameState ≠ "PLAYING" then [e]
  else if e.isProcessingAnswer then [e]
  else
    { e with isProcessingAnswer := true } ::
    guardSet e ::
    (if e.state.seenWords.contains e.state.currentWordData.word then
      correctAnswerTrace (guardSet e)
    else wrongAnswerTrace (guardSet e))

/-- Intermediate states of `answerNew()`. -/
def answerNewTrace (e : Engine) : List Engine :=
  if e.state.gameState ≠ "PLAYING" then [e]
  else if e.isProcessingAnswer then [e]
  else
    { e with isProcessingAnswer := true } ::
    guardSet e ::
    (if e.state.seenWords.contains e.state.currentWordData.word then
      wrongAnswerTrace (guardSet e)
    else correctAnswerTrace (guardSet e))

/-- Intermediate states of `handleTimerExpiry()`: nothing when the guard
is set; otherwise the state after `stopTimer()` followed by the
`handleWrongAnswer()` statements.  No statement of this path assigns
`isProcessingAnswer = true`. -/
def timerExpiryTrace (e : Engine) : List Engine :=
  if e.isProcessingAnswer then [e]
  else stopTimer e :: wrongAnswerTrace (stopTimer e)

/-!
Reference-semantics model for `getState()`.  `getState` returns
`{ ...this.state }`: a new object whose primitive fields are copied by
value but whose `seenWords` array and `currentWordData` object are the
*same* heap references as the engine's.  To state this, the array-valued
field is represented by an index into a store of string arrays, and
`Array.prototype.push` by an in-place update of that store.
-/

/-- The field values of a `this.state`-like object; `seenWordsRef` and
`currentWordDataRef` are heap references (store indices). -/
structure JSGameStateObj where
  authToken : Option String
  gameState : String
  gameMode : String
  currentScore : Nat
  lives : Int
  seenWordsRef : Nat
  currentWordDataRef : Nat
  timerValue : Rat
deriving DecidableEq

/-- The heap compartments the state object points into. -/
structure JSHeap where
  strArrays : List (List String)
  wordObjs : List WordData
deriving DecidableEq

/-- `{ ...s }`: a fresh object with the same field values — primitives
copied by value, reference fields still pointing at the same heap cells. -/
def spreadCopy (s : JSGameStateObj) : JSGameStateObj :=
  { authToken := s.authToken
    gameState := s.gameState
    gameMode := s.gameMode
    currentScore := s.currentScore
    lives := s.lives
    seenWordsRef := s.seenWordsRef
    currentWordDataRef := s.currentWordDataRef
    timerValue := s.timerValue }

/-- `arr.push(w)` on the string array stored at reference `r`: an in-place
heap mutation. -/
def pushWord (h : JSHeap) (r : Nat) (w : String) : JSHeap :=
  { h with strArrays := h.strArrays.set r (h.strArrays.getD r [] ++ [w]) }

/-- Reading `s.seenWords` dereferences the heap at the object's stored
reference. -/
def readSeenWords (h : JSHeap) (s : JSGameStateObj) : List String :=
  h.strArrays.getD s.seenWordsRef []

/-- A concrete supplier result: the word "apple" with difficulty 0.5 and a
3-second time limit (a value `MockAPI.getNextWord` can produce). -/
def wdApple : WordData := { word := "apple", difficulty := 1/2, time_limit := 3 }

/-- A concrete supplier result: the word "logic". -/
def wdLogic : WordData := { word := "logic", difficulty := 1/2, time_limit := 3 }

/-- A concrete mid-round state: the game was started and the supplier's
first word ("apple", novel) has been presented at wall-clock instant 0. -/
def ePlaying : Engine := runE initEngine [Event.start, Event.fetchArrive wdApple 0]

/-- A concrete engine-owned state object for the reference-semantics model:
its `seenWords` array lives at store index 0. -/
def sObj0 : JSGameStateObj :=
  { authToken := none
    gameState := "PLAYING"
    gameMode := "medium"
    currentScore := 0
    lives := 3
    seenWordsRef := 0
    currentWordDataRef := 0
    timerValue := 3 }

/-- The concrete heap backing `sObj0`: one (empty) seen-words array and one
word object. -/
def heap0 : JSHeap := { strArrays := [[]], wordObjs := [wdApple] }

/-!
Helper lemmas about the individual handlers, shared by several claims.
-/

theorem guardSet_state (e : Engine) : (guardSet e).state = e.state := rfl

theorem stopTimer_state (e : Engine) : (stopTimer e).state = e.state := rfl

theorem handleCorrectAnswer_state (e : Engine) :
    (handleCorrectAnswer e).state =
      { e.state with
        currentScore := e.state.currentScore + 1,
        seenWords := e.state.seenWords ++ [e.state.currentWordData.word] } := rfl

theorem handleWrongAnswer_score (e : Engine) :
    (handleWrongAnswer e).state.currentScore = e.state.currentScore := by
  unfold handleWrongAnswer; split <;> rfl

theorem handleWrongAnswer_lives (e : Engine) :
    (handleWrongAnswer e).state.lives = e.state.lives - 1 := by
  unfold handleWrongAnswer; split <;> rfl

theorem handleWrongAnswer_seenWords (e : Engine) :
    (handleWrongAnswer e).state.seenWords =
      e.state.seenWords ++ [e.state.currentWordData.word] := by
  unfold handleWrongAnswer; split <;> rfl

theorem handleWrongAnswer_guard (e : Engine) :
    (handleWrongAnswer e).isProcessingAnswer = false := by
  unfold handleWrongAnswer; split <;> rfl

theorem handleWrongAnswer_timerValue (e : Engine) :
    (handleWrongAnswer e).state.timerValue = e.state.timerValue := by
  unfold handleWrongAnswer; split <;> rfl

theorem handleWrongAnswer_timer_none (e : Engine) (h : e.timer = none) :
    (handleWrongAnswer e).timer = none := by
  unfold handleWrongAnswer; split
  · rfl
  · exact h

theorem answerSeen_notPlaying (e : Engine) (h : e.state.gameState ≠ "PLAYING") :
    answerSeen e = e := if_pos h

theorem answerNew_notPlaying (e : Engine) (h : e.state.gameState ≠ "PLAYING") :
    answerNew e = e := if_pos h

theorem answerSeen_guarded (e : Engine) (h : e.isProcessingAnswer = true) :
    answerSeen e = e := by
  unfold answerSeen
  split
  · rfl
  · simp [h]

theorem answerNew_guarded (e : Engine) (h : e.isProcessingAnswer = true) :
    answerNew e = e := by
  unfold answerNew
  split
  · rfl
  · simp [h]

theorem answerSeen_correct (e : Engine) (hp : e.state.gameState = "PLAYING")
    (hg : e.isProcessingAnswer = false)
    (hc : e.state.seenWords.contains e.state.currentWordData.word = true) :
    answerSeen e = handleCorrectAnswer (guardSet e) := by
  unfold answerSeen
  rw [if_neg (by simp [hp]), if_neg (by simp [hg]), if_pos hc]

theorem answerSeen_wrong (e : Engine) (hp : e.state.gameState = "PLAYING")
    (hg : e.isProcessingAnswer = false)
    (hc : e.state.seenWords.contains e.state.currentWordData.word = false) :
    answerSeen e = handleWrongAnswer (guardSet e) := by
  unfold answerSeen
  rw [if_neg (by simp [hp]), if_neg (by simp [hg]),
    if_neg (by simp only [hc]; exact Bool.false_ne_true)]

theorem answerNew_correct (e : Engine) (hp : e.state.gameState = "PLAYING")
    (hg : e.isProcessingAnswer = false)
    (hc : e.state.seenWords.contains e.state.currentWordData.word = false) :
    answerNew e = handleCorrectAnswer (guardSet e) := by
  unfold answerNew
  rw [if_neg (by simp [hp]), if_neg (by simp [hg]),
    if_neg (by simp only [hc]; exact Bool.false_ne_true)]

theorem answerNew_wrong (e : Engine) (hp : e.state.gameState = "PLAYING")
    (hg : e.isProcessingAnswer = false)
    (hc : e.state.seenWords.contains e.state.currentWordData.word = true) :
    answerNew e = handleWrongAnswer (guardSet e) := by
  unfold answerNew
  rw [if_neg (by simp [hp]), if_neg (by simp [hg]), if_pos hc]

/-- C1: in a PLAYING state with the guard clear, both answer methods are
decided by the single membership test `seenWords.includes(currentWordData.word)`
evaluated before the word is appended: SEEN is correct exactly when the test
holds, NEW exactly when it fails; the correct answer adds one to
`currentScore` (leaving `lives` alone) and the incorrect one subtracts one
from `lives` (leaving `currentScore` alone). -/
theorem c1_answer_evaluation (e : Engine)
    (hp : e.state.gameState = "PLAYING") (hg : e.isProcessingAnswer = false) :
    ((answerSeen e).state.currentScore =
      if e.state.seenWords.contains e.state.currentWordData.word then
        e.state.currentScore + 1
      else e.state.currentScore) ∧
    ((answerSeen e).state.lives =
      if e.state.seenWords.contains e.state.currentWordData.word then
        e.state.lives
      else e.state.lives - 1) ∧
    ((answerNew e).state.currentScore =
      if e.state.seenWords.contains e.state.currentWordData.word then
        e.state.currentScore
      else e.state.currentScore + 1) ∧
    ((answerNew e).state.lives =
      if e.state.seenWords.contains e.state.currentWordData.word then
        e.state.lives - 1
      else e.state.lives) := by
  by_cases hc : e.state.seenWords.contains e.state.currentWordData.word = true
  · rw [answerSeen_correct e hp hg hc, answerNew_wrong e hp hg hc]
    refine ⟨?_, ?_, ?_, ?_⟩ <;>
      simp only [hc, handleCorrectAnswer_state, handleWrongAnswer_score,
        handleWrongAnswer_lives, guardSet_state] <;> simp
  · have hc' : e.state.seenWords.contains e.state.currentWordData.word = false := by
      simpa using hc
    rw [answerSeen_wrong e hp hg hc', answerNew_correct e hp hg hc']
    refine ⟨?_, ?_, ?_, ?_⟩ <;>
      simp only [hc', handleCorrectAnswer_state, handleWrongAnswer_score,
        handleWrongAnswer_lives, guardSet_state] <;> simp

/-- C1 witness: the theorem applied to the concrete mid-round state
`ePlaying` (word "apple", not yet seen). -/
theorem c1_answer_evaluation_witness :
    ePlaying.state.gameState = "PLAYING" ∧ ePlaying.isProcessingAnswer = false ∧
    (((answerSeen ePlaying).state.currentScore =
      if ePlaying.state.seenWords.contains ePlaying.state.currentWordData.word then
        ePlaying.state.currentScore + 1
      else ePlaying.state.currentScore) ∧
    ((answerSeen ePlaying).state.lives =
      if ePlaying.state.seenWords.contains ePlaying.state.currentWordData.word then
        ePlaying.state.lives
      else ePlaying.state.lives - 1) ∧
    ((answerNew ePlaying).state.currentScore =
      if ePlaying.state.seenWords.contains ePlaying.state.currentWordData.word then
        ePlaying.state.currentScore
      else ePlaying.state.currentScore + 1) ∧
    ((answerNew ePlaying).state.lives =
      if ePlaying.state.seenWords.contains ePlaying.state.currentWordData.word then
        ePlaying.state.lives - 1
      else ePlaying.state.lives)) :=
  ⟨by decide, by decide, c1_answer_evaluation ePlaying (by decide) (by decide)⟩

/-- C9: operations attempted in an illegal phase leave the whole engine —
and hence every component of the `GameState` — unchanged: `answerSeen` and
`answerNew` outside `PLAYING`, `setMode` during `PLAYING`, `setMode` with
an unrecognised mode string, and `startGame` during `PLAYING` all return
the engine exactly as it was.  (The accompanying `console.log` reporting is
outside the state model.) -/
theorem c9_illegal_ops_no_state_change (e : Engine) (m : String) :
    (e.state.gameState ≠ "PLAYING" → answerSeen e = e ∧ answerNew e = e) ∧
    (e.state.gameState = "PLAYING" → setMode m e = e ∧ startGame e = e) ∧
    ((["easy", "medium", "hard"].contains m) = false → setMode m e = e) := by
  refine ⟨fun h => ⟨answerSeen_notPlaying e h, answerNew_notPlaying e h⟩,
    fun h => ⟨?_, ?_⟩, fun h => ?_⟩
  · unfold setMode
    by_cases hb : (["easy", "medium", "hard"].contains m) = true
    · rw [if_neg (by rw [hb]; simp), if_pos h]
    · have hb' : (["easy", "medium", "hard"].contains m) = false := by simpa using hb
      rw [if_pos (by rw [hb']; rfl)]
  · exact if_pos h
  · unfold setMode
    rw [if_pos (by rw [h]; rfl)]

/-- C9 witness: the theorem applied to the concrete `PLAYING` state
`ePlaying` and the unrecognised mode string "extreme". -/
theorem c9_illegal_ops_no_state_change_witness :
    ((ePlaying.state.gameState ≠ "PLAYING" →
        answerSeen ePlaying = ePlaying ∧ answerNew ePlaying = ePlaying) ∧
     (ePlaying.state.gameState = "PLAYING" →
        setMode "extreme" ePlaying = ePlaying ∧ startGame ePlaying = ePlaying) ∧
     ((["easy", "medium", "hard"].contains "extreme") = false →
        setMode "extreme" ePlaying = ePlaying)) ∧
    ePlaying.state.gameState = "PLAYING" ∧
    (["easy", "medium", "hard"].contains "extreme") = false :=
  ⟨c9_illegal_ops_no_state_change ePlaying "extreme", by decide, by decide⟩

/-- C2 is violated by the code: the reentrancy guard is cleared
synchronously at the end of the first answer's evaluation, so a second
answer submitted *after* that resolution but *before* the next word is
presented passes both the phase check and the guard check and is evaluated
again against the same `currentWordData`.  Concretely, from `ePlaying`
(word "apple" presented once, never seen) `answerNew` resolves correctly
(score 1); a subsequent `answerSeen` — still for the same presented word,
no new word having arrived — is *not* ignored: it changes the state and
lifts the score to 2, i.e. the one presentation received two effective
resolutions. -/
theorem c2_second_answer_not_ignored :
    answerSeen (answerNew ePlaying) ≠ answerNew ePlaying ∧
    (answerNew ePlaying).state.currentScore = 1 ∧
    (answerSeen (answerNew ePlaying)).state.currentScore = 2 := by decide

/-- C3 is violated by the code on the "exactly once per presentation"
part: `ePlaying` arises from a single presentation (`Event.fetchArrive`)
of "apple", and that presentation itself leaves `seenWords` empty; but
after the double resolution of C2 the word stands in `seenWords` twice —
one presentation, two appends (one per resolution). -/
theorem c3_word_appended_twice_for_one_presentation :
    ePlaying.state.seenWords = [] ∧
    (answerSeen (answerNew ePlaying)).state.seenWords = ["apple", "apple"] := by decide

/-- C4 is violated by the code: `fetchNextWord` checks
`gameState === "PLAYING"` only *before* its `await`, and its continuation
installs the word and re-arms the timer unconditionally.  In the run below
the player answers correctly ("apple", score 1), the scheduled
`fetchNextWord` call goes out, and while it is in flight three wrong
answers exhaust the lives (`gameOver`, lives 0).  The stale fetch then
arrives in `GAME_OVER`, re-arms the timer, and the eventual expiry runs
`handleWrongAnswer` once more: `lives` ends at -1, outside the claimed
range [0,3]. -/
theorem c4_stale_fetch_drives_lives_negative :
    (runE initEngine [Event.start, Event.fetchArrive wdApple 0, Event.new,
        Event.fetchCall, Event.new, Event.new, Event.new]).state.gameState = "GAME_OVER" ∧
    (runE initEngine [Event.start, Event.fetchArrive wdApple 0, Event.new,
        Event.fetchCall, Event.new, Event.new, Event.new]).state.lives = 0 ∧
    (runE initEngine [Event.start, Event.fetchArrive wdApple 0, Event.new,
        Event.fetchCall, Event.new, Event.new, Event.new,
        Event.fetchArrive wdLogic 1000, Event.tick 5000]).state.lives = -1 := by
  with_unfolding_all decide

theorem handleTimerExpiry_score (e : Engine) :
    (handleTimerExpiry e).state.currentScore = e.state.currentScore := by
  unfold handleTimerExpiry
  split
  · rfl
  · rw [handleWrongAnswer_score]; rfl

theorem tickUpdate_score (now : Rat) (t : TimerHandle) (e : Engine) :
    (tickUpdate now t e).state.currentScore = e.state.currentScore := rfl

theorem timerTick_none (now : Rat) (e : Engine) (ht : e.timer = none) :
    timerTick now e = e := by
  unfold timerTick
  rw [ht]

theorem timerTick_some (now : Rat) (e : Engine) (t : TimerHandle) (ht : e.timer = some t) :
    timerTick now e =
      if jsMax 0 (t.duration - (now - t.startTime)) / 1000 ≤ 0 then
        handleTimerExpiry (tickUpdate now t e)
      else tickUpdate now t e := by
  unfold timerTick
  rw [ht]

theorem timerTick_score (now : Rat) (e : Engine) :
    (timerTick now e).state.currentScore = e.state.currentScore := by
  cases ht : e.timer with
  | none => rw [timerTick_none now e ht]
  | some t =>
      rw [timerTick_some now e t ht]
      split
      · rw [handleTimerExpiry_score, tickUpdate_score]
      · rw [tickUpdate_score]

theorem step_score (ev : Event) (e : Engine) (h : isStartEv ev = false) :
    (step ev e).state.currentScore =
      e.state.currentScore + (if resolvedCorrect ev e then 1 else 0) := by
  cases ev with
  | start => simp [isStartEv] at h
  | seen =>
      show (answerSeen e).state.currentScore = _
      by_cases hp : e.state.gameState = "PLAYING"
      · by_cases hg : e.isProcessingAnswer = true
        · rw [answerSeen_guarded e hg]
          simp [resolvedCorrect, hg]
        · have hg' : e.isProcessingAnswer = false := by simpa using hg
          by_cases hc : e.state.seenWords.contains e.state.currentWordData.word = true
          · rw [answerSeen_correct e hp hg' hc]
            have hm : e.state.currentWordData.word ∈ e.state.seenWords := by simpa using hc
            simp [resolvedCorrect, hp, hg', hm, handleCorrectAnswer_state, guardSet_state]
          · have hc' : e.state.seenWords.contains e.state.currentWordData.word = false := by
              simpa using hc
            rw [answerSeen_wrong e hp hg' hc']
            have hm : e.state.currentWordData.word ∉ e.state.seenWords := by simpa using hc'
            simp [resolvedCorrect, hp, hg', hm, handleWrongAnswer_score, guardSet_state]
      · rw [answerSeen_notPlaying e (by simp [hp])]
        simp [resolvedCorrect, hp]
  | new =>
      show (answerNew e).state.currentScore = _
      by_cases hp : e.state.gameState = "PLAYING"
      · by_cases hg : e.isProcessingAnswer = true
        · rw [answerNew_guarded e hg]
          simp [resolvedCorrect, hg]
        · have hg' : e.isProcessingAnswer = false := by simpa using hg
          by_cases hc : e.state.seenWords.contains e.state.currentWordData.word = true
          · rw [answerNew_wrong e hp hg' hc]
            have hm : e.state.currentWordData.word ∈ e.state.seenWords := by simpa using hc
            simp [resolvedCorrect, hp, hg', hm, handleWrongAnswer_score, guardSet_state]
          · have hc' : e.state.seenWords.contains e.state.currentWordData.word = false := by
              simpa using hc
            rw [answerNew_correct e hp hg' hc']
            have hm : e.state.currentWordData.word ∉ e.state.seenWords := by simpa using hc'
            simp [resolvedCorrect, hp, hg', hm, handleCorrectAnswer_state, guardSet_state]
      · rw [answerNew_notPlaying e (by simp [hp])]
        simp [resolvedCorrect, hp]
  | tick now =>
      show (timerTick now e).state.currentScore = _
      rw [timerTick_score]
      simp [resolvedCorrect]
  | fetchCall =>
      show (if e.pendingFetches = 0 then e
        else fetchNextWordCall { e with pendingFetches := e.pendingFetches - 1 }).state.currentScore = _
      simp only [resolvedCorrect, if_false, Nat.add_zero, ite_false]
      split
      · rfl
      · unfold fetchNextWordCall
        split <;> rfl
  | fetchArrive wd now =>
      show (if e.inflightFetches = 0 then e
        else fetchNextWordResume wd now
          { e with inflightFetches := e.inflightFetches - 1 }).state.currentScore = _
      simp only [resolvedCorrect, if_false, Nat.add_zero, ite_false]
      split <;> rfl
  | mode m =>
      show (setMode m e).state.currentScore = _
      simp only [resolvedCorrect, if_false, Nat.add_zero, ite_false]
      unfold setMode
      split
      · rfl
      · split <;> rfl

theorem runE_score (evs : List Event) :
    ∀ e : Engine, (∀ ev ∈ evs, isStartEv ev = false) →
      (runE e evs).state.currentScore = e.state.currentScore + countCorrect e evs := by
  induction evs with
  | nil => intro e _; simp [runE, countCorrect]
  | cons ev evs ih =>
      intro e h
      have h1 : isStartEv ev = false := h ev (List.mem_cons_self ev evs)
      have h2 : ∀ ev2 ∈ evs, isStartEv ev2 = false :=
        fun ev2 hm => h ev2 (List.mem_cons_of_mem ev hm)
      show (runE (step ev e) evs).state.currentScore = _
      rw [ih (step ev e) h2, step_score ev e h1, Nat.add_assoc]
      rfl

theorem startGame_notPlaying (e : Engine) (hp : e.state.gameState ≠ "PLAYING") :
    startGame e =
      { e with
        state := { e.state with
          gameState := "PLAYING", currentScore := 0, lives := 3, seenWords := [] },
        inflightFetches := e.inflightFetches + 1 } := by
  unfold startGame fetchNextWordCall
  rw [if_neg hp, if_neg (by simp)]

/-- C6: from any non-PLAYING state, `startGame` resets the round
(`gameState = "PLAYING"`, `currentScore = 0`, `lives = 3`,
`seenWords = []`), and along any subsequent sequence of event-loop steps of
that round (no further `startGame` calls), `currentScore` equals exactly
the number of correct answer resolutions since the reset — wrong answers,
timeouts and all other steps leave it unchanged, each correct resolution
adds exactly one. -/
theorem c6_score_counts_correct_answers (e : Engine) (evs : List Event)
    (hp : e.state.gameState ≠ "PLAYING") (hs : ∀ ev ∈ evs, isStartEv ev = false) :
    (startGame e).state.gameState = "PLAYING" ∧
    (startGame e).state.currentScore = 0 ∧
    (startGame e).state.lives = 3 ∧
    (startGame e).state.seenWords = [] ∧
    (runE (startGame e) evs).state.currentScore = countCorrect (startGame e) evs := by
  rw [runE_score evs (startGame e) hs, startGame_notPlaying e hp]
  exact ⟨rfl, rfl, rfl, rfl, Nat.zero_add _⟩

/-- C6 witness: starting from the fresh engine and playing one correct NEW
("apple", novel) and one correct SEEN (same word, now seen) gives score 2,
matching the count of correct resolutions. -/
theorem c6_score_counts_correct_answers_witness :
    initEngine.state.gameState ≠ "PLAYING" ∧
    (∀ ev ∈ [Event.fetchArrive wdApple 0, Event.new, Event.seen], isStartEv ev = false) ∧
    ((startGame initEngine).state.gameState = "PLAYING" ∧
     (startGame initEngine).state.currentScore = 0 ∧
     (startGame initEngine).state.lives = 3 ∧
     (startGame initEngine).state.seenWords = [] ∧
     (runE (startGame initEngine) [Event.fetchArrive wdApple 0, Event.new, Event.seen]).state.currentScore =
       countCorrect (startGame initEngine) [Event.fetchArrive wdApple 0, Event.new, Event.seen]) :=
  ⟨by decide, by decide, c6_score_counts_correct_answers initEngine
    [Event.fetchArrive wdApple 0, Event.new, Event.seen] (by decide) (by decide)⟩

theorem handleTimerExpiry_unguarded (e : Engine) (hg : e.isProcessingAnswer = false) :
    handleTimerExpiry e = handleWrongAnswer (stopTimer e) := by
  unfold handleTimerExpiry
  rw [if_neg (by simp [hg])]

theorem handleTimerExpiry_timerValue (e : Engine) :
    (handleTimerExpiry e).state.timerValue = e.state.timerValue := by
  unfold handleTimerExpiry
  split
  · rfl
  · rw [handleWrongAnswer_timerValue]; rfl

theorem timerTick_timerValue (now : Rat) (e : Engine) (t : TimerHandle)
    (ht : e.timer = some t) :
    (timerTick now e).state.timerValue =
      toFixed1 (jsMax 0 (t.duration - (now - t.startTime)) / 1000) := by
  rw [timerTick_some now e t ht]
  split
  · rw [handleTimerExpiry_timerValue]; rfl
  · rfl

theorem toFixed1_nonneg (x : Rat) (hx : 0 ≤ x) : 0 ≤ toFixed1 x := by
  unfold toFixed1
  apply div_nonneg _ (by norm_num)
  have h : (0 : Int) ≤ Int.floor (x * 10 + 1/2) := Int.floor_nonneg.mpr (by linarith)
  exact_mod_cast h

theorem jsMax_zero_nonneg (x : Rat) : 0 ≤ jsMax 0 x := by
  unfold jsMax
  split
  · assumption
  · exact le_refl 0

theorem jsMax_zero_nonpos (x : Rat) (hx : x ≤ 0) : jsMax 0 x ≤ 0 := by
  unfold jsMax
  split
  · exact hx
  · exact le_refl 0

/-- C7: for an armed countdown (`timer = some t`) the interval callback
always *recomputes* the displayed remaining time as the clamped
`max(0, duration - elapsed) / 1000` of wall-clock time — so the stored
value after a tick is nonnegative and is entirely independent of the
previous `timerValue` (no decrement-based drift) — and once the remaining
time is ≤ 0 with no answer mid-processing, the tick fires the timeout
transition exactly once: it disarms the timer, costs exactly one life, and
any later tick is a no-op because the countdown stopped itself. -/
theorem c7_timer_recompute_and_single_expiry (e : Engine) (t : TimerHandle)
    (now now2 v : Rat) (ht : e.timer = some t) :
    0 ≤ (timerTick now e).state.timerValue ∧
    ((timerTick now { e with state := { e.state with timerValue := v } }).state.timerValue =
      (timerTick now e).state.timerValue) ∧
    (e.isProcessingAnswer = false → t.duration - (now - t.startTime) ≤ 0 →
      (timerTick now e).timer = none ∧
      (timerTick now e).state.lives = e.state.lives - 1 ∧
      timerTick now2 (timerTick now e) = timerTick now e) := by
  refine ⟨?_, ?_, fun hg hd => ?_⟩
  · rw [timerTick_timerValue now e t ht]
    exact toFixed1_nonneg _ (div_nonneg (jsMax_zero_nonneg _) (by norm_num))
  · have ht' : ({ e with state := { e.state with timerValue := v } } : Engine).timer = some t := ht
    rw [timerTick_timerValue now _ t ht', timerTick_timerValue now e t ht]
  · have hr : jsMax 0 (t.duration - (now - t.startTime)) / 1000 ≤ 0 :=
      div_nonpos_iff.mpr (Or.inr ⟨jsMax_zero_nonpos _ hd, by norm_num⟩)
    rw [timerTick_some now e t ht, if_pos hr]
    have hg2 : (tickUpdate now t e).isProcessingAnswer = false := hg
    rw [handleTimerExpiry_unguarded _ hg2]
    refine ⟨handleWrongAnswer_timer_none _ rfl, ?_, ?_⟩
    · rw [handleWrongAnswer_lives]; rfl
    · rw [timerTick_none now2 _ (handleWrongAnswer_timer_none _ rfl)]

/-- C7 witness: the theorem applied to `ePlaying` (armed with
`startTime = 0`, `duration = 3000`), a tick at wall-clock 5000 (2 seconds
past expiry), a follow-up tick at 6000, and an arbitrary overwritten
previous `timerValue` 7. -/
theorem c7_timer_recompute_and_single_expiry_witness :
    ePlaying.timer = some { startTime := 0, duration := 3000 } ∧
    (0 ≤ (timerTick 5000 ePlaying).state.timerValue ∧
     ((timerTick 5000 { ePlaying with
        state := { ePlaying.state with timerValue := 7 } }).state.timerValue =
       (timerTick 5000 ePlaying).state.timerValue) ∧
     (ePlaying.isProcessingAnswer = false →
       ({ startTime := 0, duration := 3000 } : TimerHandle).duration -
         (5000 - ({ startTime := 0, duration := 3000 } : TimerHandle).startTime) ≤ 0 →
       (timerTick 5000 ePlaying).timer = none ∧
       (timerTick 5000 ePlaying).state.lives = ePlaying.state.lives - 1 ∧
       timerTick 6000 (timerTick 5000 ePlaying) = timerTick 5000 ePlaying)) :=
  ⟨by rw [show ePlaying.timer = some { startTime := 0, duration := wdApple.time_limit * 1000 }
        from rfl]; norm_num [wdApple],
   c7_timer_recompute_and_single_expiry ePlaying { startTime := 0, duration := 3000 }
     5000 6000 7
     (by rw [show ePlaying.timer = some { startTime := 0, duration := wdApple.time_limit * 1000 }
        from rfl]; norm_num [wdApple])⟩

/-- C5 is violated by the code on the timeout path: `handleTimerExpiry`
only *tests* `isProcessingAnswer` and never sets it, so a timeout
evaluation runs with the guard unset throughout.  Concretely, in the
timeout evaluation from `ePlaying` the micro-state reached right after the
`this.state.lives--` statement (index 1 of the statement trace) has a life
already deducted while the word is not yet appended — a begun evaluation
with uncommitted mutations — and the guard is still `false` there. -/
theorem c5_timeout_runs_with_guard_unset :
    ((timerExpiryTrace ePlaying).getD 1 initEngine).isProcessingAnswer = false ∧
    ((timerExpiryTrace ePlaying).getD 1 initEngine).state.lives = 2 ∧
    ((timerExpiryTrace ePlaying).getD 1 initEngine).state.seenWords = [] ∧
    ePlaying.state.lives = 3 ∧ ePlaying.state.seenWords = [] := by decide

/-- C5 (amended): in the *answer* evaluations the guard discipline holds:
along `answerSeen`/`answerNew` from a PLAYING state with the guard clear,
every intermediate statement-level state in which the guard is unset
already has the resolved word appended (the round's mutations committed),
and the last state of the trace is exactly the method's result.  The
*timeout* evaluation, by contrast, never sets the guard: all its
intermediate states carry `isProcessingAnswer = false`, so its protection
relies on the answer paths' guard and the synchronous run-to-completion of
the callback, not on the timeout setting the guard. -/
theorem c5_guard_discipline_answers_not_timeout (e : Engine)
    (hp : e.state.gameState = "PLAYING") (hg : e.isProcessingAnswer = false) :
    (∀ s ∈ answerSeenTrace e, s.isProcessingAnswer = false →
       s.state.seenWords = e.state.seenWords ++ [e.state.currentWordData.word]) ∧
    (∀ s ∈ answerNewTrace e, s.isProcessingAnswer = false →
       s.state.seenWords = e.state.seenWords ++ [e.state.currentWordData.word]) ∧
    (∀ s ∈ timerExpiryTrace e, s.isProcessingAnswer = false) ∧
    (answerSeenTrace e).getLastD e = answerSeen e ∧
    (answerNewTrace e).getLastD e = answerNew e ∧
    (timerExpiryTrace e).getLastD e = handleTimerExpiry e := by
  have hnp : ¬(e.state.gameState ≠ "PLAYING") := by simp [hp]
  have hng : ¬(e.isProcessingAnswer = true) := by simp [hg]
  refine ⟨?_, ?_, ?_, ?_, ?_, ?_⟩
  · intro s hs hguard
    unfold answerSeenTrace at hs
    rw [if_neg hnp, if_neg hng] at hs
    by_cases hc : e.state.seenWords.contains e.state.currentWordData.word = true
    · rw [if_pos hc] at hs
      unfold correctAnswerTrace at hs
      simp only [List.mem_cons, List.not_mem_nil, or_false] at hs
      rcases hs with rfl | rfl | rfl | rfl | rfl | rfl
      · exact absurd hguard (by simp)
      · exact absurd hguard (by simp [guardSet])
      · exact absurd hguard (by simp [guardSet])
      · exact absurd hguard (by simp [guardSet])
      · rfl
      · rfl
    · rw [if_neg (by simp only [hc]; trivial)] at hs
      unfold wrongAnswerTrace at hs
      split at hs <;> simp only [List.mem_cons, List.not_mem_nil, or_false] at hs
      · rcases hs with rfl | rfl | rfl | rfl | rfl | rfl | rfl
        · exact absurd hguard (by simp)
        · exact absurd hguard (by simp [guardSet])
        · exact absurd hguard (by simp [guardSet])
        · exact absurd hguard (by simp [wrongUpdate, guardSet])
        · exact absurd hguard (by simp [wrongUpdate, guardSet])
        · exact absurd hguard (by simp [wrongUpdate, guardSet])
        · rw [handleWrongAnswer_seenWords]; rfl
      · rcases hs with rfl | rfl | rfl | rfl | rfl | rfl
        · exact absurd hguard (by simp)
        · exact absurd hguard (by simp [guardSet])
        · exact absurd hguard (by simp [guardSet])
        · exact absurd hguard (by simp [wrongUpdate, guardSet])
        · rfl
        · rw [handleWrongAnswer_seenWords]; rfl
  · intro s hs hguard
    unfold answerNewTrace at hs
    rw [if_neg hnp, if_neg hng] at hs
    by_cases hc : e.state.seenWords.contains e.state.currentWordData.word = true
    · rw [if_pos hc] at hs
      unfold wrongAnswerTrace at hs
      split at hs <;> simp only [List.mem_cons, List.not_mem_nil, or_false] at hs
      · rcases hs with rfl | rfl | rfl | rfl | rfl | rfl | rfl
        · exact absurd hguard (by simp)
        · exact absurd hguard (by simp [guardSet])
        · exact absurd hguard (by simp [guardSet])
        · exact absurd hguard (by simp [wrongUpdate, guardSet])
        · exact absurd hguard (by simp [wrongUpdate, guardSet])
        · exact absurd hguard (by simp [wrongUpdate, guardSet])
        · rw [handleWrongAnswer_seenWords]; rfl
      · rcases hs with rfl | rfl | rfl | rfl | rfl | rfl
        · exact absurd hguard (by simp)
        · exact absurd hguard (by simp [guardSet])
        · exact absurd hguard (by simp [guardSet])
        · exact absurd hguard (by simp [wrongUpdate, guardSet])
        · rfl
        · rw [handleWrongAnswer_seenWords]; rfl
    · rw [if_neg (by simp only [hc]; trivial)] at hs
      unfold correctAnswerTrace at hs
      simp only [List.mem_cons, List.not_mem_nil, or_false] at hs
      rcases hs with rfl | rfl | rfl | rfl | rfl | rfl
      · exact absurd hguard (by simp)
      · exact absurd hguard (by simp [guardSet])
      · exact absurd hguard (by simp [guardSet])
      · exact absurd hguard (by simp [guardSet])
      · rfl
      · rfl
  · intro s hs
    unfold timerExpiryTrace at hs
    rw [if_neg hng] at hs
    unfold wrongAnswerTrace at hs
    split at hs <;> simp only [List.mem_cons, List.not_mem_nil, or_false] at hs
    · rcases hs with rfl | rfl | rfl | rfl | rfl | rfl
      · exact hg
      · exact hg
      · exact hg
      · exact hg
      · exact hg
      · exact handleWrongAnswer_guard _
    · rcases hs with rfl | rfl | rfl | rfl | rfl
      · exact hg
      · exact hg
      · exact hg
      · rfl
      · exact handleWrongAnswer_guard _
  · unfold answerSeenTrace answerSeen
    rw [if_neg hnp, if_neg hng, if_neg hnp, if_neg hng]
    by_cases hc : e.state.seenWords.contains e.state.currentWordData.word = true
    · rw [if_pos hc, if_pos hc]
      rfl
    · rw [if_neg (by simp only [hc]; trivial), if_neg (by simp only [hc]; trivial)]
      unfold wrongAnswerTrace
      split <;> rfl
  · unfold answerNewTrace answerNew
    rw [if_neg hnp, if_neg hng, if_neg hnp, if_neg hng]
    by_cases hc : e.state.seenWords.contains e.state.currentWordData.word = true
    · rw [if_pos hc, if_pos hc]
      unfold wrongAnswerTrace
      split <;> rfl
    · rw [if_neg (by simp only [hc]; trivial), if_neg (by simp only [hc]; trivial)]
      rfl
  · unfold timerExpiryTrace handleTimerExpiry
    rw [if_neg hng, if_neg hng]
    unfold wrongAnswerTrace
    split <;> rfl

/-- C5 witness: the guard-discipline theorem applied to the concrete
mid-round state `ePlaying`. -/
theorem c5_guard_discipline_witness :
    ePlaying.state.gameState = "PLAYING" ∧ ePlaying.isProcessingAnswer = false ∧
    ((∀ s ∈ answerSeenTrace ePlaying, s.isProcessingAnswer = false →
        s.state.seenWords =
          ePlaying.state.seenWords ++ [ePlaying.state.currentWordData.word]) ∧
     (∀ s ∈ answerNewTrace ePlaying, s.isProcessingAnswer = false →
        s.state.seenWords =
          ePlaying.state.seenWords ++ [ePlaying.state.currentWordData.word]) ∧
     (∀ s ∈ timerExpiryTrace ePlaying, s.isProcessingAnswer = false) ∧
     (answerSeenTrace ePlaying).getLastD ePlaying = answerSeen ePlaying ∧
     (answerNewTrace ePlaying).getLastD ePlaying = answerNew ePlaying ∧
     (timerExpiryTrace ePlaying).getLastD ePlaying = handleTimerExpiry ePlaying) :=
  ⟨by decide, by decide,
   c5_guard_discipline_answers_not_timeout ePlaying (by decide) (by decide)⟩

theorem getD_set_of_lt {α : Type} (l : List α) (n : Nat) (a d : α) (h : n < l.length) :
    (l.set n a).getD n d = a := by
  induction l generalizing n with
  | nil => simp at h
  | cons x xs ih =>
      cases n with
      | zero => rfl
      | succ m => exact ih m (by simpa using h)

/-- C8 is violated by the code: `getState` returns `{ ...this.state }`, a
*shallow* copy whose `seenWords` field is the same array reference as the
engine's.  Concretely, for the engine state `sObj0` over `heap0` (empty
seen-words array), a snapshot taken before an answer resolution changes
value when the engine's `seenWords.push("apple")` runs: reading the
snapshot afterwards yields `["apple"]`, not the `[]` it held at call time —
the returned value is affected by an engine mutation performed after the
call. -/
theorem c8_snapshot_mutated_by_engine_push :
    readSeenWords heap0 (spreadCopy sObj0) = [] ∧
    readSeenWords (pushWord heap0 sObj0.seenWordsRef "apple") (spreadCopy sObj0) =
      ["apple"] := by decide

/-- C8 (amended): `getState` returns a shallow copy: every field value is
copied, so the primitive fields (phase, mode, score, lives, timer value)
of a snapshot are insulated from later reassignments on the engine's state
object, but the `seenWords` array (and the `currentWordData` object) are
shared by reference — an in-place `push` performed through the engine's
reference is visible when reading the snapshot, and a `push` performed
through the snapshot's reference is visible when reading the engine's
state. -/
theorem c8_getState_is_shallow_copy (s : JSGameStateObj) (h : JSHeap) (w : String)
    (g : String) (n : Nat) (hr : s.seenWordsRef < h.strArrays.length) :
    (spreadCopy s).seenWordsRef = s.seenWordsRef ∧
    (spreadCopy s).currentWordDataRef = s.currentWordDataRef ∧
    (spreadCopy s).gameState = s.gameState ∧
    (spreadCopy s).currentScore = s.currentScore ∧
    (spreadCopy s).lives = s.lives ∧
    (spreadCopy s).timerValue = s.timerValue ∧
    (spreadCopy s).gameState = s.gameState ∧
    ({ s with gameState := g, currentScore := n } : JSGameStateObj).seenWordsRef =
      (spreadCopy s).seenWordsRef ∧
    readSeenWords (pushWord h s.seenWordsRef w) (spreadCopy s) =
      readSeenWords h s ++ [w] ∧
    readSeenWords (pushWord h (spreadCopy s).seenWordsRef w) s =
      readSeenWords h s ++ [w] := by
  refine ⟨rfl, rfl, rfl, rfl, rfl, rfl, rfl, rfl, ?_, ?_⟩ <;>
    exact getD_set_of_lt h.strArrays s.seenWordsRef _ [] hr

/-- C8 witness: the shallow-copy theorem applied to the concrete state
object `sObj0` over `heap0`. -/
theorem c8_getState_is_shallow_copy_witness :
    sObj0.seenWordsRef < heap0.strArrays.length ∧
    ((spreadCopy sObj0).seenWordsRef = sObj0.seenWordsRef ∧
     (spreadCopy sObj0).currentWordDataRef = sObj0.currentWordDataRef ∧
     (spreadCopy sObj0).gameState = sObj0.gameState ∧
     (spreadCopy sObj0).currentScore = sObj0.currentScore ∧
     (spreadCopy sObj0).lives = sObj0.lives ∧
     (spreadCopy sObj0).timerValue = sObj0.timerValue ∧
     (spreadCopy sObj0).gameState = sObj0.gameState ∧
     ({ sObj0 with gameState := "GAME_OVER", currentScore := 5 } :
        JSGameStateObj).seenWordsRef = (spreadCopy sObj0).seenWordsRef ∧
     readSeenWords (pushWord heap0 sObj0.seenWordsRef "apple") (spreadCopy sObj0) =
       readSeenWords heap0 sObj0 ++ ["apple"] ∧
     readSeenWords (pushWord heap0 (spreadCopy sObj0).seenWordsRef "apple") sObj0 =
       readSeenWords heap0 sObj0 ++ ["apple"]) :=
  ⟨by decide, c8_getState_is_shallow_copy sObj0 heap0 "apple" "GAME_OVER" 5 (by decide)⟩

theorem drawGo_exists (bank seen : List String) (draws : Nat → Nat) :
    ∀ fuel a : Nat, a ≤ 49 →
      ∃ k, a ≤ k ∧ k ≤ 49 ∧ drawGo bank seen draws fuel a = bank.getD (draws k) "" := by
  intro fuel
  induction fuel with
  | zero => exact fun a ha => ⟨a, le_refl a, ha, rfl⟩
  | succ f ih =>
      intro a ha
      unfold drawGo
      split
      · rename_i hcond
        obtain ⟨k, hk1, hk2, hk3⟩ := ih (a + 1) (by omega)
        exact ⟨k, by omega, hk2, hk3⟩
      · exact ⟨a, le_refl a, ha, rfl⟩

theorem drawGo_fallback (bank seen : List String) (draws : Nat → Nat) :
    ∀ fuel a : Nat, fuel + a = 49 →
      (∀ k, a ≤ k → k ≤ 49 → seen.contains (bank.getD (draws k) "") = true) →
      drawGo bank seen draws (fuel + 1) a = bank.getD (draws 49) "" := by
  intro fuel
  induction fuel with
  | zero =>
      intro a ha hall
      have h49 : a = 49 := by omega
      subst h49
      unfold drawGo
      rw [if_neg (fun hcon => absurd hcon.2 (by omega))]
  | succ f ih =>
      intro a ha hall
      show drawGo bank seen draws (f + 1 + 1) a = _
      unfold drawGo
      rw [if_pos ⟨hall a (le_refl a) (by omega), by omega⟩]
      exact ih (a + 1) (by omega) (fun k hk1 hk2 => hall k (by omega) hk2)

/-- C10: `MockAPI.getNextWord` (with its random draws made explicit)
always terminates with a well-formed result: the returned difficulty is
the rounded raw `Math.random()` draw and lies in [0,1], the returned time
limit `toFixed1(5 - difficulty*3)` is strictly positive, and the
novel-word search is bounded — its result is always one of the first 50
bank draws, and if every one of those 50 draws is already in `seenWords`
it gives up and returns the word of the 50th (last) draw. -/
theorem c10_supplier_bounded_and_in_range (seen : List String) (rr : Rat) (ri : Nat)
    (draws : Nat → Nat) (dr : Rat) (h0 : 0 ≤ dr) (h1 : dr < 1) :
    0 ≤ (mockGetNextWord seen rr ri draws dr).difficulty ∧
    (mockGetNextWord seen rr ri draws dr).difficulty ≤ 1 ∧
    0 < (mockGetNextWord seen rr ri draws dr).time_limit ∧
    (∃ k, k ≤ 49 ∧ drawGo wordBank seen draws 50 0 = wordBank.getD (draws k) "") ∧
    ((∀ k, k ≤ 49 → seen.contains (wordBank.getD (draws k) "") = true) →
      drawGo wordBank seen draws 50 0 = wordBank.getD (draws 49) "") := by
  refine ⟨?_, ?_, ?_, ?_, ?_⟩
  · show 0 ≤ toFixed2 dr
    unfold toFixed2
    apply div_nonneg _ (by norm_num)
    have h : (0 : Int) ≤ Int.floor (dr * 100 + 1/2) := Int.floor_nonneg.mpr (by linarith)
    exact_mod_cast h
  · show toFixed2 dr ≤ 1
    unfold toFixed2
    rw [div_le_one (by norm_num : (0:Rat) < 100)]
    have h : Int.floor (dr * 100 + 1/2) < 101 := Int.floor_lt.mpr (by push_cast; linarith)
    have h2 : Int.floor (dr * 100 + 1/2) ≤ 100 := by omega
    exact_mod_cast h2
  · show 0 < toFixed1 (5 - dr * 3)
    unfold toFixed1
    apply div_pos _ (by norm_num)
    have h : (20 : Int) ≤ Int.floor ((5 - dr * 3) * 10 + 1/2) :=
      Int.le_floor.mpr (by push_cast; linarith)
    have h2 : (0 : Int) < Int.floor ((5 - dr * 3) * 10 + 1/2) := by omega
    exact_mod_cast h2
  · obtain ⟨k, _, hk2, hk3⟩ := drawGo_exists wordBank seen draws 50 0 (by omega)
    exact ⟨k, hk2, hk3⟩
  · intro hall
    exact drawGo_fallback wordBank seen draws 49 0 (by omega) (fun k _ hk2 => hall k hk2)

/-- C10 witness: the theorem applied to empty `seenWords`, repeat draw
0.5, repeat index 0, the constant draw sequence 0, and difficulty draw
0.5. -/
theorem c10_supplier_bounded_and_in_range_witness :
    (0 : Rat) ≤ 1/2 ∧ (1 : Rat)/2 < 1 ∧
    (0 ≤ (mockGetNextWord [] (1/2) 0 (fun _ => 0) (1/2)).difficulty ∧
     (mockGetNextWord [] (1/2) 0 (fun _ => 0) (1/2)).difficulty ≤ 1 ∧
     0 < (mockGetNextWord [] (1/2) 0 (fun _ => 0) (1/2)).time_limit ∧
     (∃ k, k ≤ 49 ∧ drawGo wordBank [] (fun _ => 0) 50 0 =
        wordBank.getD ((fun _ => 0) k) "") ∧
     ((∀ k, k ≤ 49 → List.contains [] (wordBank.getD ((fun _ => 0) k) "") = true) →
       drawGo wordBank [] (fun _ => 0) 50 0 = wordBank.getD ((fun _ => 0) 49) "")) :=
  ⟨by norm_num, by norm_num,
   c10_supplier_bounded_and_in_range [] (1/2) 0 (fun _ => 0) (1/2)
     (by norm_num) (by norm_num)⟩
